import Mathlib

/-!
Shallow embedding of the MLOps-style batch job (`src/run.py`) and proofs of
the spec claims about it.

Numeric cells are modelled as `Option ℚ` (`none` is the "missing"/NaN marker);
a dataframe is an insertion-ordered list of named columns of cells.
Fallible steps return `Except String _` carrying the Python error message.
-/

namespace BatchJob

set_option maxHeartbeats 1000000

/-- A scalar value as it appears in the parsed YAML config document. -/
inductive Value where
  | vint (n : ℤ)
  | vstr (s : String)
  | vnull
deriving Repr, DecidableEq

/-- A dataframe cell: either a raw (uncoerced) string or a numeric value,
where `num none` is the missing/NaN marker. -/
inductive Cell where
  | str (s : String)
  | num (x : Option ℚ)
deriving Repr, DecidableEq

/-- A dataframe: insertion-ordered named columns. -/
structure DataFrame where
  cols : List (String × List Cell)
deriving Repr, DecidableEq

/-- Python truthiness for the config scalars we model
(`0`, `""` and `None` are falsy). -/
def truthy : Value → Bool
  | .vint n => n ≠ 0
  | .vstr s => s ≠ ""
  | .vnull => false

/-- `isinstance(v, int)` for a YAML scalar. -/
def isIntVal : Value → Bool
  | .vint _ => true
  | _ => false

/-- `isinstance(v, int) and v > 0`. -/
def isPosIntVal : Value → Bool
  | .vint n => 0 < n
  | _ => false

/-- `load_config` from `run.py` (lines 38-59), modelled from the parsed YAML
document onward: checks the required keys in order, then the types of
`seed` and `window`, and returns the mapping unchanged on success. -/
def load_config (config : List (String × Value)) :
    Except String (List (String × Value)) :=
  if (config.lookup "seed").isNone then .error "Missing config key: seed"
  else if (config.lookup "window").isNone then .error "Missing config key: window"
  else if (config.lookup "version").isNone then .error "Missing config key: version"
  else if ¬ isIntVal ((config.lookup "seed").getD .vnull) then
    .error "Seed must be integer"
  else if ¬ isPosIntVal ((config.lookup "window").getD .vnull) then
    .error "Window must be positive integer"
  else .ok config

/-- The error messages raised by the missing-key loop of `load_config`. -/
def isMissingKeyMsg (e : String) : Prop :=
  e = "Missing config key: seed" ∨ e = "Missing config key: window" ∨
    e = "Missing config key: version"

/-- The error messages raised by the type checks of `load_config`. -/
def isInvalidTypeMsg (e : String) : Prop :=
  e = "Seed must be integer" ∨ e = "Window must be positive integer"

/-! ## Dataframe primitives -/

/-- Number of rows of a dataframe (`len(df)`): the length of the first
column, 0 for a column-less frame. -/
def nrows (df : DataFrame) : ℕ :=
  match df.cols with
  | [] => 0
  | c :: _ => c.2.length

/-- `name in df.columns`. -/
def hasCol (df : DataFrame) (name : String) : Bool :=
  df.cols.any (fun p => p.1 == name)

/-- Column access `df[name]` (first column with that label). -/
def getCol (df : DataFrame) (name : String) : Option (List Cell) :=
  (df.cols.find? (fun p => p.1 == name)).map Prod.snd

/-- Column assignment `df[name] = col`: overwrite columns with that label in
place, or append a new column at the end. -/
def setCol (df : DataFrame) (name : String) (col : List Cell) : DataFrame :=
  if hasCol df name then
    ⟨df.cols.map (fun p => if p.1 = name then (name, col) else p)⟩
  else ⟨df.cols ++ [(name, col)]⟩

/-- `df.empty`: true when either axis has length zero. -/
def dfEmpty (df : DataFrame) : Bool :=
  df.cols.isEmpty || nrows df = 0

/-- The numeric view of a cell: a string cell has no numeric value. -/
def cellNum : Cell → Option ℚ
  | .str _ => none
  | .num x => x

/-- All columns have the common row count (a dataframe invariant). -/
def wellFormed (df : DataFrame) : Prop :=
  ∀ p ∈ df.cols, p.2.length = nrows df

instance (df : DataFrame) : Decidable (wellFormed df) :=
  inferInstanceAs (Decidable (∀ p ∈ df.cols, p.2.length = nrows df))

/-! ## String and parsing helpers

The standard library's `String.trim`, `String.toLower` and `String.splitOn`
are re-implemented structurally on character lists so that all definitions
evaluate by kernel reduction. -/

/-- The whitespace characters stripped by Python `str.strip()`. -/
def isSpaceChar (c : Char) : Bool :=
  c = ' ' || c = '\t' || c = '\n' || c = '\r' || c = '\x0b' || c = '\x0c'

/-- Python `s.strip()`: drop leading and trailing whitespace. -/
def strTrim (s : String) : String :=
  ⟨((s.data.dropWhile isSpaceChar).reverse.dropWhile isSpaceChar).reverse⟩

/-- ASCII lower-casing of one character. -/
def lowerChar (c : Char) : Char :=
  if 'A' ≤ c ∧ c ≤ 'Z' then Char.ofNat (c.toNat + 32) else c

/-- Python `s.lower()` (ASCII). -/
def strLower (s : String) : String := ⟨s.data.map lowerChar⟩

/-- Split a character list on a separator; never returns `[]`. -/
def splitOnChar (sep : Char) : List Char → List (List Char)
  | [] => [[]]
  | c :: rest =>
    let r := splitOnChar sep rest
    if c = sep then [] :: r
    else (c :: r.headD []) :: r.tail

/-- Python `s.split(sep)` for a one-character separator. -/
def splitC (sep : Char) (s : String) : List String :=
  (splitOnChar sep s.data).map (fun cs => ⟨cs⟩)

/-- Python `s.strip(c)` for a single character: drop every leading and
trailing occurrence of `c`. -/
def stripChar (c : Char) (s : String) : String :=
  ⟨((s.data.dropWhile (· = c)).reverse.dropWhile (· = c)).reverse⟩

/-- `line.strip().strip('"')` applied to each raw CSV line. -/
def normLine (l : String) : String := stripChar '"' (strTrim l)

/-- `s.split(",")`. -/
def splitComma (s : String) : List String := splitC ',' s

/-- Column-name normalization `.str.strip().str.lower()`. -/
def normName (s : String) : String := strLower (strTrim s)

/-- A nonempty all-digit character list read as a natural number. -/
def digitsToNat (cs : List Char) : Option ℕ :=
  if cs ≠ [] ∧ cs.all Char.isDigit then
    some (cs.foldl (fun a c => 10 * a + (c.toNat - 48)) 0)
  else none

/-- Unsigned decimal literal: an integer part, optionally followed by a dot
and a fractional part (either part may be empty, not both). -/
def parseUnsigned (s : String) : Option ℚ :=
  match splitC '.' s with
  | [intPart] => (digitsToNat intPart.data).map (fun n => (n : ℚ))
  | [intPart, fracPart] =>
    if intPart = "" && fracPart = "" then none
    else
      let ip := if intPart = "" then some 0 else digitsToNat intPart.data
      let fp := if fracPart = "" then some 0 else digitsToNat fracPart.data
      match ip, fp with
      | some i, some f => some ((i : ℚ) + (f : ℚ) / (10 : ℚ) ^ fracPart.length)
      | _, _ => none
  | _ => none

/-- `pd.to_numeric(value, errors="coerce")` on a single string: a decimal
literal with optional sign and surrounding whitespace; anything else (also
exponent forms, which this model omits) becomes missing. -/
def parseNumeric (s : String) : Option ℚ :=
  let t := strTrim s
  match t.data with
  | '-' :: rest => (parseUnsigned ⟨rest⟩).map (fun q => -q)
  | '+' :: rest => parseUnsigned ⟨rest⟩
  | _ => parseUnsigned t

/-- Numeric coercion of one cell (`NaN` stays `NaN`, strings are parsed). -/
def coerceCell : Cell → Cell
  | .str s => .num (parseNumeric s)
  | .num x => .num x

/-! ## `load_data` -/

/-- `pd.DataFrame(data_rows, columns=header)`: the inferred column count
is the widest row's length, and pandas raises "N columns passed, passed
data had M columns" whenever (for nonempty rows) that differs from the
header's length; rows narrower than the widest are padded on the right
with `NaN`. -/
def mkDataFrame (rows : List (List String)) (header : List String) :
    Except String DataFrame :=
  if rows ≠ [] ∧
      rows.foldl (fun m r => max m r.length) 0 ≠ header.length then
    .error "columns passed, passed data had a different number of columns"
  else
    .ok ⟨(List.range header.length).map (fun j =>
      (header.getD j "",
        rows.map (fun r => if j < r.length then Cell.str (r.getD j "") else Cell.num none)))⟩

/-- `df.columns = df.columns.str.strip().str.lower()`. -/
def renameCols (df : DataFrame) : DataFrame :=
  ⟨df.cols.map (fun p => (normName p.1, p.2))⟩

/-- `df["close"] = pd.to_numeric(df["close"], errors="coerce")`: with a
unique `close` label this coerces that column; with duplicated `close`
labels `df["close"]` is a frame and `pd.to_numeric` raises. -/
def coerceClose (df : DataFrame) : Except String DataFrame :=
  if df.cols.countP (fun p => p.1 == "close") = 1 then
    .ok ⟨df.cols.map (fun p =>
      if p.1 = "close" then (p.1, p.2.map coerceCell) else p)⟩
  else .error "arg must be a list, tuple, 1-d array, or Series"

/-- The normalized header line of the raw CSV lines. -/
def csvHeader (lines : List String) : List String :=
  splitComma (normLine (lines.headD ""))

/-- The normalized data rows of the raw CSV lines. -/
def csvRows (lines : List String) : List (List String) :=
  (lines.drop 1).map (fun l => splitComma (normLine l))

/-- The raw string entries of column `j` across the data rows. -/
def rawCol (lines : List String) (j : ℕ) : List String :=
  (csvRows lines).map (fun r => r.getD j "")

/-- Column `j` of the frame `load_data` yields on a well-formed CSV:
normalized name; cells coerced to numeric for a `close` column, raw
strings otherwise. -/
def loadedEntry (lines : List String) (j : ℕ) : String × List Cell :=
  (normName ((csvHeader lines).getD j ""),
    if normName ((csvHeader lines).getD j "") = "close" then
      (rawCol lines j).map (fun s => Cell.num (parseNumeric s))
    else (rawCol lines j).map Cell.str)

/-- The frame `load_data` yields on a well-formed CSV: normalized column
names, the `close` column coerced to numeric, every other column raw
strings. -/
def loadedFrame (lines : List String) : DataFrame :=
  ⟨(List.range (csvHeader lines).length).map (loadedEntry lines)⟩

/-- The steps of `load_data` after the dataframe construction (run.py
lines 87-94): normalize the column names, then coerce the `close` column
when present. -/
def buildFrame : Except String DataFrame → Except String DataFrame
  | .error e => .error e
  | .ok df =>
    if hasCol (renameCols df) "close" then coerceClose (renameCols df)
    else .ok (renameCols df)

/-- The body of the `try` block of `load_data` (run.py lines 69-94),
from the raw lines read by `readlines()`. -/
def load_data_body (lines : List String) : Except String DataFrame :=
  if lines.isEmpty then .error "CSV is empty"
  else buildFrame (mkDataFrame (csvRows lines) (csvHeader lines))

/-- The `except` handler and the checks after the `try` block of
`load_data` (run.py lines 96-103): any exception from the body — including
the "CSV is empty" raised for a zero-line file — is replaced by
"Invalid CSV format"; then the emptiness and missing-column checks run. -/
def postChecks : Except String DataFrame → Except String DataFrame
  | .error _ => .error "Invalid CSV format"
  | .ok df =>
    if dfEmpty df then .error "CSV is empty"
    else if ¬ hasCol df "close" then .error "Missing required column: close"
    else .ok df

/-- `load_data` from `run.py` (lines 65-105), modelled from the list of raw
lines onward. -/
def load_data (lines : List String) : Except String DataFrame :=
  postChecks (load_data_body lines)

/-! ## `process` -/

/-- The numeric values of the `close` column (`df["close"]`); `process` is
only ever applied to frames whose `close` column is numeric. -/
def closeVals (df : DataFrame) : List (Option ℚ) :=
  ((getCol df "close").getD []).map cellNum

/-- `series.rolling(window=w).mean()` with the default
`min_periods = w`: entry `i` is the mean of the `w` values ending at `i`
inclusive, missing when fewer than `w` rows precede or when any value in
the window is missing. -/
def rollingMean (w : ℕ) (xs : List (Option ℚ)) : List (Option ℚ) :=
  (List.range xs.length).map (fun i =>
    if i + 1 < w then none
    else
      let win := (xs.take (i + 1)).drop (i + 1 - w)
      if win.all Option.isSome then
        some ((win.map (fun o => o.getD 0)).sum / (w : ℚ))
      else none)

/-- `np.where(close > rolling_mean, 1, 0)` elementwise: a missing operand
compares as false and yields 0. -/
def signalOf (close mean : List (Option ℚ)) : List (Option ℚ) :=
  List.zipWith (fun c m =>
    match c, m with
    | some c, some m => if m < c then some (1 : ℚ) else some 0
    | _, _ => some 0) close mean

/-- `process` from `run.py` (lines 109-118): append (overwriting when the
label already exists) the `rolling_mean` and `signal` columns. -/
def process (df : DataFrame) (window : ℕ) : DataFrame :=
  let close := closeVals df
  let rm := rollingMean window close
  let df1 := setCol df "rolling_mean" (rm.map Cell.num)
  let sg := signalOf close rm
  setCol df1 "signal" (sg.map Cell.num)

/-! ## Metrics -/

/-- Round-half-to-even to the nearest integer (Python `round`). -/
def roundHalfEven (q : ℚ) : ℤ :=
  let f : ℤ := q.num.fdiv q.den
  let r : ℚ := q - (f : ℚ)
  if r < 1/2 then f
  else if 1/2 < r then f + 1
  else if f % 2 = 0 then f else f + 1

/-- Python `round(x, 4)`. -/
def round4 (q : ℚ) : ℚ := (roundHalfEven (q * 10000) : ℚ) / 10000

/-- `series.mean()` with the default `skipna=True`: the mean of the present
values. -/
def seriesMean (cells : List Cell) : ℚ :=
  let vals := cells.filterMap cellNum
  vals.sum / (vals.length : ℚ)

/-- The success-path metrics record. -/
structure SuccessMetrics where
  version : Value
  rows_processed : ℕ
  metric : String
  value : ℚ
  latency_ms : ℤ
  seed : ℤ
  status : String
deriving Repr, DecidableEq

/-- `compute_metrics` from `run.py` (lines 124-135). -/
def compute_metrics (df : DataFrame) (version : Value) (seed : ℤ)
    (latency_ms : ℤ) : SuccessMetrics :=
  { version := version
    rows_processed := nrows df
    metric := "signal_rate"
    value := round4 (seriesMean ((getCol df "signal").getD []))
    latency_ms := latency_ms
    seed := seed
    status := "success" }

/-- The error-path metrics record. -/
structure ErrorMetrics where
  version : Value
  status : String
  error_message : String
deriving Repr, DecidableEq

/-- `write_error_metrics` from `run.py` (lines 141-151), modelled as the
record it writes: a missing or falsy `version` becomes `"unknown"`. -/
def write_error_metrics (version : Option Value) (error_message : String) :
    ErrorMetrics :=
  { version :=
      match version with
      | some v => if truthy v then v else .vstr "unknown"
      | none => .vstr "unknown"
    status := "error"
    error_message := error_message }

/-! ## Driver -/

/-- Outcome of one run of `main`: the metrics record written and echoed. -/
inductive RunResult where
  | success (metrics : SuccessMetrics)
  | failure (err : ErrorMetrics)
deriving Repr, DecidableEq

/-- The process exit status of a run. -/
def exitCode : RunResult → ℕ
  | .success _ => 0
  | .failure _ => 1

/-- The reported "value" of a run, when it succeeded. -/
def runValue : RunResult → Option ℚ
  | .success m => some m.value
  | .failure _ => none

/-- The reported "rows_processed" of a run, when it succeeded. -/
def runRows : RunResult → Option ℕ
  | .success m => some m.rows_processed
  | .failure _ => none

/-- The config step of `main`: `none` models a missing file, `some none` a
YAML document that parses to null, `some (some doc)` a parsed mapping. -/
def loadConfigFile :
    Option (Option (List (String × Value))) →
      Except String (List (String × Value))
  | none => .error "Config file not found"
  | some none => .error "Config file is empty"
  | some (some doc) => load_config doc

/-- The data step of `main`: `none` models a missing input file, `some
lines` the raw lines of an existing one. -/
def loadDataFile : Option (List String) → Except String DataFrame
  | none => .error "Input CSV not found"
  | some lines => load_data lines

/-- `config["window"]` as a natural number; `load_config` has already
ensured the key holds a positive integer. -/
def getWindow (config : List (String × Value)) : ℕ :=
  match config.lookup "window" with
  | some (.vint n) => n.toNat
  | _ => 0

/-- `config["seed"]`. -/
def getSeed (config : List (String × Value)) : ℤ :=
  match config.lookup "seed" with
  | some (.vint n) => n
  | _ => 0

/-- `config["version"]`. -/
def getVersion (config : List (String × Value)) : Value :=
  (config.lookup "version").getD .vnull

/-- `np.random.seed(config["seed"])` (run.py line 171): numpy accepts an
integer seed only in `[0, 2^32 - 1]` and raises a ValueError otherwise —
a range `load_config` does not check. The generator's output is never
consumed afterwards, so only this check is observable. -/
def np_random_seed (seed : ℤ) : Except String Unit :=
  if seed < 0 ∨ 2 ^ 32 ≤ seed then
    .error "Seed must be between 0 and 2**32 - 1"
  else .ok ()

/-- `main` from `run.py` (lines 157-212), modelled from the parsed inputs
and the measured latency: config validation, the `np.random.seed` call,
then the data step and processing; the single `try/except` routes any
stage error to `write_error_metrics` with the version resolved so far
(`none` when the config step itself failed) and exit code 1; a full run
exits 0. -/
def main (configFile : Option (Option (List (String × Value))))
    (inputFile : Option (List String)) (latency_ms : ℤ) : RunResult :=
  match loadConfigFile configFile with
  | .error e => .failure (write_error_metrics none e)
  | .ok config =>
    match np_random_seed (getSeed config) with
    | .error e => .failure (write_error_metrics (config.lookup "version") e)
    | .ok _ =>
      match loadDataFile inputFile with
      | .error e => .failure (write_error_metrics (config.lookup "version") e)
      | .ok df =>
        let df := process df (getWindow config)
        .success (compute_metrics df (getVersion config) (getSeed config) latency_ms)

/-! ## Generic list lemmas -/

theorem getD_range_map {α : Type} (n i : ℕ) (f : ℕ → α) (d : α) (h : i < n) :
    ((List.range n).map f).getD i d = f i := by
  rw [List.getD_eq_getElem?_getD, List.getElem?_eq_getElem (by simpa using h)]
  simp

theorem range_map_congr {α : Type} (n : ℕ) (f g : ℕ → α)
    (h : ∀ j < n, f j = g j) : (List.range n).map f = (List.range n).map g := by
  apply List.map_congr_left
  intro j hj
  exact h j (List.mem_range.mp hj)

theorem range_map_getD {α β : Type} (l : List α) (d : α) (g : α → β) :
    (List.range l.length).map (fun j => g (l.getD j d)) = l.map g := by
  apply List.ext_getElem
  · simp
  · intro i h1 h2
    simp only [List.getElem_map, List.getElem_range]
    rw [List.getD_eq_getElem?_getD, List.getElem?_eq_getElem (by simpa using h2)]
    simp

theorem list_range_map_sum (n : ℕ) (f : ℕ → ℚ) :
    ((List.range n).map f).sum = ∑ k ∈ Finset.range n, f k := by
  induction n with
  | zero => simp
  | succ n ih =>
    rw [List.range_succ, List.map_append, List.sum_append, Finset.sum_range_succ, ih]
    simp

theorem filterMap_id_of_all_isSome {α : Type} (l : List (Option α)) (d : α)
    (h : ∀ o ∈ l, o.isSome) :
    l.filterMap id = l.map (fun o => o.getD d) := by
  induction l with
  | nil => simp
  | cons o t ih =>
    obtain ⟨a, rfl⟩ := Option.isSome_iff_exists.mp (h o (List.mem_cons_self o t))
    simp only [List.filterMap_cons, id, List.map_cons, Option.getD_some]
    exact congrArg _ (ih (fun x hx => h x (List.mem_cons_of_mem _ hx)))

/-! ## DataFrame access lemmas -/

theorem find?_set_list (t : List (String × List Cell)) (n : String) (c : List Cell)
    (h : t.any (fun p => p.1 == n) = true) :
    (t.map (fun p => if p.1 = n then (n, c) else p)).find? (fun p => p.1 == n) =
      some (n, c) := by
  induction t with
  | nil => simp at h
  | cons p t ih =>
    by_cases hp : p.1 = n
    · simp only [List.map_cons, if_pos hp]
      rw [List.find?_cons_of_pos _ (by simp)]
    · simp only [List.any_cons, Bool.or_eq_true, beq_iff_eq, hp, false_or] at h
      simp only [List.map_cons, if_neg hp]
      rw [List.find?_cons_of_neg _ (by simpa using hp)]
      exact ih (by simpa using h)

theorem find?_append_nomatch (t : List (String × List Cell)) (n : String)
    (c : List Cell) (h : t.any (fun p => p.1 == n) = false) :
    (t ++ [(n, c)]).find? (fun p => p.1 == n) = some (n, c) := by
  induction t with
  | nil =>
    simp only [List.nil_append]
    rw [List.find?_cons_of_pos _ (by simp)]
  | cons p t ih =>
    simp only [List.any_cons, Bool.or_eq_false_iff] at h
    simp only [List.cons_append]
    rw [List.find?_cons_of_neg _ (by simp [h.1])]
    exact ih h.2

theorem find?_set_ne (t : List (String × List Cell)) (n m : String) (c : List Cell)
    (hnm : m ≠ n) :
    (t.map (fun p => if p.1 = n then (n, c) else p)).find? (fun p => p.1 == m) =
      t.find? (fun p => p.1 == m) := by
  induction t with
  | nil => simp
  | cons p t ih =>
    by_cases hp : p.1 = n
    · simp only [List.map_cons, if_pos hp]
      rw [List.find?_cons_of_neg _ (by simpa using Ne.symm hnm),
        List.find?_cons_of_neg _ (by simp [hp]; exact Ne.symm hnm)]
      exact ih
    · simp only [List.map_cons, if_neg hp]
      by_cases hq : p.1 = m
      · rw [List.find?_cons_of_pos _ (by simpa using hq),
          List.find?_cons_of_pos _ (by simpa using hq)]
      · rw [List.find?_cons_of_neg _ (by simpa using hq),
          List.find?_cons_of_neg _ (by simpa using hq)]
        exact ih

theorem find?_append_ne (t : List (String × List Cell)) (n m : String)
    (c : List Cell) (hnm : m ≠ n) :
    (t ++ [(n, c)]).find? (fun p => p.1 == m) = t.find? (fun p => p.1 == m) := by
  induction t with
  | nil =>
    simp only [List.nil_append]
    rw [List.find?_cons_of_neg _ (by simpa using Ne.symm hnm)]
  | cons p t ih =>
    simp only [List.cons_append]
    by_cases hq : p.1 = m
    · rw [List.find?_cons_of_pos _ (by simpa using hq),
        List.find?_cons_of_pos _ (by simpa using hq)]
    · rw [List.find?_cons_of_neg _ (by simpa using hq),
        List.find?_cons_of_neg _ (by simpa using hq)]
      exact ih

theorem getCol_setCol_self (df : DataFrame) (n : String) (c : List Cell) :
    getCol (setCol df n c) n = some c := by
  unfold setCol
  by_cases h : hasCol df n = true
  · rw [if_pos h]
    unfold getCol
    rw [find?_set_list df.cols n c h]
    rfl
  · rw [if_neg h]
    unfold getCol
    rw [find?_append_nomatch df.cols n c (Bool.eq_false_iff.mpr h)]
    rfl

theorem getCol_setCol_ne (df : DataFrame) (n m : String) (c : List Cell)
    (hnm : m ≠ n) : getCol (setCol df n c) m = getCol df m := by
  unfold setCol
  by_cases h : hasCol df n = true
  · rw [if_pos h]
    unfold getCol
    rw [find?_set_ne df.cols n m c hnm]
  · rw [if_neg h]
    unfold getCol
    rw [find?_append_ne df.cols n m c hnm]

theorem setCol_map_fst (df : DataFrame) (n : String) (c : List Cell) :
    (setCol df n c).cols.map Prod.fst =
      if hasCol df n then df.cols.map Prod.fst else df.cols.map Prod.fst ++ [n] := by
  unfold setCol
  by_cases h : hasCol df n = true
  · rw [if_pos h, if_pos h, List.map_map]
    apply List.map_congr_left
    intro p _
    by_cases hp : p.1 = n
    · simp [Function.comp, hp]
    · simp [Function.comp, hp]
  · rw [if_neg h, if_neg h]
    simp

theorem setCol_cols_ne_nil (df : DataFrame) (n : String) (c : List Cell)
    (h : df.cols ≠ []) : (setCol df n c).cols ≠ [] := by
  unfold setCol
  by_cases hc : hasCol df n = true
  · rw [if_pos hc]
    simpa using h
  · rw [if_neg hc]
    simp

theorem hasCol_iff_mem (df : DataFrame) (n : String) :
    hasCol df n = true ↔ n ∈ df.cols.map Prod.fst := by
  unfold hasCol
  rw [List.any_eq_true]
  constructor
  · rintro ⟨p, hp, he⟩
    exact List.mem_map.mpr ⟨p, hp, by simpa using he⟩
  · rintro hm
    obtain ⟨p, hp, he⟩ := List.mem_map.mp hm
    exact ⟨p, hp, by simpa using he⟩

theorem hasCol_setCol_ne (df : DataFrame) (n m : String) (c : List Cell)
    (hnm : m ≠ n) : hasCol (setCol df n c) m = hasCol df m := by
  by_cases h : hasCol df m = true
  · rw [h]
    rw [hasCol_iff_mem] at h ⊢
    rw [setCol_map_fst]
    by_cases h2 : hasCol df n = true
    · rwa [if_pos h2]
    · rw [if_neg h2]
      exact List.mem_append_left _ h
  · have h' : m ∉ df.cols.map Prod.fst := fun hm => h ((hasCol_iff_mem df m).mpr hm)
    rw [show hasCol df m = false from Bool.eq_false_iff.mpr h]
    rw [← Bool.not_eq_true, hasCol_iff_mem, setCol_map_fst]
    by_cases h2 : hasCol df n = true
    · rwa [if_pos h2]
    · rw [if_neg h2]
      intro hmem
      rcases List.mem_append.mp hmem with h3 | h3
      · exact h' h3
      · exact hnm (by simpa using h3)

theorem nrows_setCol (df : DataFrame) (n : String) (col : List Cell)
    (hne : df.cols ≠ []) (hlen : col.length = nrows df) :
    nrows (setCol df n col) = nrows df := by
  unfold setCol
  by_cases h : hasCol df n = true
  · rw [if_pos h]
    unfold nrows
    match hd : df.cols with
    | [] => exact absurd hd hne
    | p :: t =>
      simp only [List.map_cons]
      by_cases hp : p.1 = n
      · simp only [if_pos hp]
        rw [hlen]
        unfold nrows
        rw [hd]
      · simp only [if_neg hp]
  · rw [if_neg h]
    unfold nrows
    match hd : df.cols with
    | [] => exact absurd hd hne
    | p :: t => simp

theorem getCol_length_of_wellFormed (df : DataFrame) (n : String) (c : List Cell)
    (hwf : wellFormed df) (h : getCol df n = some c) : c.length = nrows df := by
  unfold getCol at h
  match hf : df.cols.find? (fun p => p.1 == n) with
  | none => rw [hf] at h; simp at h
  | some p =>
    rw [hf] at h
    simp only [Option.map_some'] at h
    have hmem := List.mem_of_find?_eq_some hf
    rw [← Option.some_inj.mp h]
    exact hwf p hmem

theorem closeVals_length (df : DataFrame) (hwf : wellFormed df)
    (hc : hasCol df "close" = true) : (closeVals df).length = nrows df := by
  unfold closeVals
  have : (df.cols.find? (fun p => p.1 == "close")).isSome := by
    rw [List.find?_isSome]
    unfold hasCol at hc
    rw [List.any_eq_true] at hc
    exact hc
  obtain ⟨p, hp⟩ := Option.isSome_iff_exists.mp this
  have : getCol df "close" = some p.2 := by
    unfold getCol
    rw [hp]
    rfl
  rw [this]
  simpa using getCol_length_of_wellFormed df "close" p.2 hwf this

theorem hasCol_cols_ne_nil (df : DataFrame) (n : String)
    (h : hasCol df n = true) : df.cols ≠ [] := by
  intro hc
  unfold hasCol at h
  rw [hc] at h
  simp at h

theorem rollingMean_length (w : ℕ) (xs : List (Option ℚ)) :
    (rollingMean w xs).length = xs.length := by
  simp [rollingMean]

theorem signalOf_length (c m : List (Option ℚ)) :
    (signalOf c m).length = min c.length m.length := by
  simp [signalOf]

/-! ## `process` shape lemmas -/

theorem getCol_process_rolling_mean (df : DataFrame) (w : ℕ) :
    getCol (process df w) "rolling_mean" =
      some ((rollingMean w (closeVals df)).map Cell.num) := by
  unfold process
  rw [getCol_setCol_ne _ _ _ _ (by decide), getCol_setCol_self]

theorem getCol_process_signal (df : DataFrame) (w : ℕ) :
    getCol (process df w) "signal" =
      some ((signalOf (closeVals df) (rollingMean w (closeVals df))).map Cell.num) := by
  unfold process
  rw [getCol_setCol_self]

theorem getCol_process_other (df : DataFrame) (w : ℕ) (name : String)
    (h1 : name ≠ "rolling_mean") (h2 : name ≠ "signal") :
    getCol (process df w) name = getCol df name := by
  unfold process
  rw [getCol_setCol_ne _ _ _ _ h2, getCol_setCol_ne _ _ _ _ h1]

theorem nrows_process (df : DataFrame) (w : ℕ) (hwf : wellFormed df)
    (hc : hasCol df "close" = true) : nrows (process df w) = nrows df := by
  have hne := hasCol_cols_ne_nil df "close" hc
  have hcl := closeVals_length df hwf hc
  unfold process
  have h1 : nrows (setCol df "rolling_mean"
      ((rollingMean w (closeVals df)).map Cell.num)) = nrows df := by
    apply nrows_setCol _ _ _ hne
    rw [List.length_map, rollingMean_length, hcl]
  rw [nrows_setCol, h1]
  · exact setCol_cols_ne_nil _ _ _ hne
  · rw [List.length_map, signalOf_length, rollingMean_length, hcl, h1, Nat.min_self]

/-! ## C4 -/

/-- C4: `load_config` fails with a MissingKey error when any of
{seed, window, version} is absent from the parsed document; fails with an
InvalidType error when the keys are present but `seed` is not an integer or
`window` is not a positive integer; and on success returns exactly the
parsed mapping unchanged. -/
theorem load_config_spec (config : List (String × Value)) :
    (((config.lookup "seed").isNone ∨ (config.lookup "window").isNone ∨
        (config.lookup "version").isNone) →
      ∃ e, load_config config = .error e ∧ isMissingKeyMsg e) ∧
    ((config.lookup "seed").isSome → (config.lookup "window").isSome →
      (config.lookup "version").isSome →
      (¬ isIntVal ((config.lookup "seed").getD .vnull) = true ∨
        ¬ isPosIntVal ((config.lookup "window").getD .vnull) = true) →
      ∃ e, load_config config = .error e ∧ isInvalidTypeMsg e) ∧
    ((config.lookup "seed").isSome → (config.lookup "window").isSome →
      (config.lookup "version").isSome →
      isIntVal ((config.lookup "seed").getD .vnull) = true →
      isPosIntVal ((config.lookup "window").getD .vnull) = true →
      load_config config = .ok config) := by
  have hcontra : ∀ a : Option Value, a.isNone = true → a.isSome = true → False :=
    fun a h1 h2 =>
      Option.isSome_iff_ne_none.mp h2 (Option.isNone_iff_eq_none.mp h1)
  unfold load_config
  by_cases h1 : (config.lookup "seed").isNone = true
  · rw [if_pos h1]
    exact ⟨fun _ => ⟨_, rfl, Or.inl rfl⟩,
      fun hs _ _ _ => absurd (hcontra _ h1 hs) not_false,
      fun hs _ _ _ _ => absurd (hcontra _ h1 hs) not_false⟩
  · rw [if_neg h1]
    by_cases h2 : (config.lookup "window").isNone = true
    · rw [if_pos h2]
      exact ⟨fun _ => ⟨_, rfl, Or.inr (Or.inl rfl)⟩,
        fun _ hw _ _ => absurd (hcontra _ h2 hw) not_false,
        fun _ hw _ _ _ => absurd (hcontra _ h2 hw) not_false⟩
    · rw [if_neg h2]
      by_cases h3 : (config.lookup "version").isNone = true
      · rw [if_pos h3]
        exact ⟨fun _ => ⟨_, rfl, Or.inr (Or.inr rfl)⟩,
          fun _ _ hv _ => absurd (hcontra _ h3 hv) not_false,
          fun _ _ hv _ _ => absurd (hcontra _ h3 hv) not_false⟩
      · rw [if_neg h3]
        have hmiss : ¬ ((config.lookup "seed").isNone ∨
            (config.lookup "window").isNone ∨ (config.lookup "version").isNone) := by
          rintro (h | h | h)
          · exact h1 h
          · exact h2 h
          · exact h3 h
        by_cases h4 : ¬ isIntVal ((config.lookup "seed").getD .vnull) = true
        · rw [if_pos h4]
          exact ⟨fun h => absurd h hmiss,
            fun _ _ _ _ => ⟨_, rfl, Or.inl rfl⟩,
            fun _ _ _ hty _ => absurd hty h4⟩
        · rw [if_neg h4]
          by_cases h5 : ¬ isPosIntVal ((config.lookup "window").getD .vnull) = true
          · rw [if_pos h5]
            exact ⟨fun h => absurd h hmiss,
              fun _ _ _ _ => ⟨_, rfl, Or.inr rfl⟩,
              fun _ _ _ _ hpos => absurd hpos h5⟩
          · rw [if_neg h5]
            refine ⟨fun h => absurd h hmiss, fun _ _ _ h => ?_,
              fun _ _ _ _ _ => rfl⟩
            rcases h with h | h
            · exact absurd h h4
            · exact absurd h h5

/-- Witness for C4 at a concrete valid configuration. -/
theorem load_config_spec_witness :
    load_config [("seed", Value.vint 1), ("window", Value.vint 2),
        ("version", Value.vstr "v1")] =
      .ok [("seed", Value.vint 1), ("window", Value.vint 2),
        ("version", Value.vstr "v1")] :=
  (load_config_spec _).2.2 (by decide) (by decide) (by decide) (by decide)
    (by decide)

/-! ## C6 -/

theorem dfEmpty_of_all_nil (df : DataFrame) (h : ∀ p ∈ df.cols, p.2 = []) :
    dfEmpty df = true := by
  obtain ⟨cols⟩ := df
  cases cols with
  | nil => rfl
  | cons p t =>
    have hp := h p (List.mem_cons_self p t)
    simp [dfEmpty, nrows, hp]

theorem countP_names (cols : List (String × List Cell)) (n : String) :
    cols.countP (fun p => p.1 == n) =
      (cols.map Prod.fst).countP (fun s => s == n) := by
  induction cols with
  | nil => rfl
  | cons p t ih => simp [List.countP_cons, ih]

theorem bind_ok_eq {ε α β : Type} (a : α) (f : α → Except ε β) :
    (Except.ok a : Except ε α) >>= f = f a := rfl

theorem bind_pure_eq {ε α β : Type} (a : α) (f : α → Except ε β) :
    (pure a : Except ε α) >>= f = f a := rfl

theorem load_data_body_cons (l : String) (rest : List String) :
    load_data_body (l :: rest) =
      buildFrame (mkDataFrame (csvRows (l :: rest)) (csvHeader (l :: rest))) := rfl

theorem load_data_body_single (h : String)
    (hdup : ((csvHeader [h]).map normName).count "close" ≤ 1) :
    ∃ df, load_data_body [h] = .ok df ∧ ∀ p ∈ df.cols, p.2 = [] := by
  have hrows : csvRows [h] = [] := rfl
  have hmk : mkDataFrame (csvRows [h]) (csvHeader [h]) =
      .ok ⟨(List.range (csvHeader [h]).length).map
        (fun j => ((csvHeader [h]).getD j "", []))⟩ := by
    rw [hrows]
    rfl
  set H := csvHeader [h] with hH
  set df1 : DataFrame :=
    ⟨(List.range H.length).map (fun j => (normName (H.getD j ""), []))⟩ with hdf1
  have hren : renameCols ⟨(List.range H.length).map (fun j => (H.getD j "", []))⟩ =
      df1 := by
    rw [hdf1]
    unfold renameCols
    simp [List.map_map, Function.comp]
  have hnames : df1.cols.map Prod.fst = H.map normName := by
    rw [hdf1]
    simp only [List.map_map, Function.comp]
    exact range_map_getD H "" normName
  have hnil1 : ∀ p ∈ df1.cols, p.2 = [] := by
    rw [hdf1]
    intro p hp
    obtain ⟨j, _, rfl⟩ := List.mem_map.mp hp
    rfl
  have hbody : load_data_body [h] =
      (if hasCol df1 "close" then coerceClose df1 else .ok df1) := by
    rw [load_data_body_cons h [], hmk]
    simp only [buildFrame]
    rw [hren]
  by_cases hc : hasCol df1 "close" = true
  · rw [hbody, if_pos hc]
    have hpos : 0 < df1.cols.countP (fun p => p.1 == "close") := by
      rw [List.countP_pos_iff]
      unfold hasCol at hc
      exact List.any_eq_true.mp hc
    have hle : df1.cols.countP (fun p => p.1 == "close") ≤ 1 := by
      rw [countP_names, hnames]
      exact le_trans (le_of_eq (List.count_eq_countP _ _).symm) hdup
    have h1 : df1.cols.countP (fun p => p.1 == "close") = 1 := le_antisymm hle hpos
    refine ⟨⟨df1.cols.map (fun p =>
        if p.1 = "close" then (p.1, p.2.map coerceCell) else p)⟩, ?_, ?_⟩
    · unfold coerceClose
      rw [if_pos h1]
    · intro p hp
      obtain ⟨q, hq, rfl⟩ := List.mem_map.mp hp
      have hq2 := hnil1 q hq
      by_cases hq1 : q.1 = "close" <;> simp [hq1, hq2]
  · rw [hbody, if_neg hc]
    exact ⟨df1, rfl, hnil1⟩

/-- C6 counterexample: a file that exists but has no lines is reported as
"Invalid CSV format", not "CSV is empty" — the internal empty-input raise
is swallowed by the catch-all parse handler. -/
theorem load_data_no_lines_counterexample :
    load_data [] = .error "Invalid CSV format" ∧
      "Invalid CSV format" ≠ "CSV is empty" := by
  exact ⟨rfl, by decide⟩

/-- C6 (amended): a zero-line file yields the "Invalid CSV format" error
(the internally raised "CSV is empty" is replaced by the catch-all parsing
handler), while a header-only file — without a duplicated `close` column —
yields "CSV is empty". -/
theorem load_data_empty_input_amended (h : String)
    (hdup : ((csvHeader [h]).map normName).count "close" ≤ 1) :
    load_data [] = .error "Invalid CSV format" ∧
      load_data [h] = .error "CSV is empty" := by
  refine ⟨rfl, ?_⟩
  obtain ⟨df, hdf, hnil⟩ := load_data_body_single h hdup
  have he := dfEmpty_of_all_nil df hnil
  unfold load_data
  rw [hdf]
  simp only [postChecks, he, if_true]

/-- Witness for the amended C6 at the concrete header line "close". -/
theorem load_data_empty_input_amended_witness :
    load_data [] = .error "Invalid CSV format" ∧
      load_data ["close"] = .error "CSV is empty" :=
  load_data_empty_input_amended "close" (by decide)

/-! ## C7 -/

theorem isSome_of_not_isNone {α : Type} (a : Option α) (h : ¬ a.isNone = true) :
    a.isSome = true := by
  cases a
  · simp at h
  · rfl

theorem load_config_ok_facts (d cfg : List (String × Value))
    (h : load_config d = .ok cfg) :
    cfg = d ∧ (d.lookup "version").isSome = true := by
  unfold load_config at h
  by_cases h1 : (d.lookup "seed").isNone = true
  · rw [if_pos h1] at h
    exact Except.noConfusion h
  · rw [if_neg h1] at h
    by_cases h2 : (d.lookup "window").isNone = true
    · rw [if_pos h2] at h
      exact Except.noConfusion h
    · rw [if_neg h2] at h
      by_cases h3 : (d.lookup "version").isNone = true
      · rw [if_pos h3] at h
        exact Except.noConfusion h
      · rw [if_neg h3] at h
        by_cases h4 : ¬ isIntVal ((d.lookup "seed").getD .vnull) = true
        · rw [if_pos h4] at h
          exact Except.noConfusion h
        · rw [if_neg h4] at h
          by_cases h5 : ¬ isPosIntVal ((d.lookup "window").getD .vnull) = true
          · rw [if_pos h5] at h
            exact Except.noConfusion h
          · rw [if_neg h5] at h
            exact ⟨(Except.ok.inj h).symm, isSome_of_not_isNone _ h3⟩

theorem loadConfigFile_ok_version (c : Option (Option (List (String × Value))))
    (cfg : List (String × Value)) (h : loadConfigFile c = .ok cfg) :
    (cfg.lookup "version").isSome = true := by
  match c with
  | none => exact Except.noConfusion h
  | some none => exact Except.noConfusion h
  | some (some d) =>
    obtain ⟨rfl, hv⟩ := load_config_ok_facts d cfg h
    exact hv

/-- C7 counterexample: with config `{seed: 1, window: 1, version: ""}` the
config step succeeds and the config's version is the empty string, yet the
error record written when the data step fails carries "unknown" — the
substitution applies to every falsy version, not only to a failed config
step. -/
theorem main_version_counterexample :
    load_config [("seed", Value.vint 1), ("window", Value.vint 1),
        ("version", Value.vstr "")] =
      .ok [("seed", Value.vint 1), ("window", Value.vint 1),
        ("version", Value.vstr "")] ∧
    main (some (some [("seed", Value.vint 1), ("window", Value.vint 1),
        ("version", Value.vstr "")])) none 0 =
      .failure ⟨Value.vstr "unknown", "error", "Input CSV not found"⟩ ∧
    Value.vstr "unknown" ≠ Value.vstr "" :=
  ⟨rfl, rfl, by decide⟩

theorem main_ok_config (c : Option (Option (List (String × Value))))
    (i : Option (List String)) (l : ℤ) (cfg : List (String × Value))
    (hc : loadConfigFile c = .ok cfg) :
    main c i l =
      (match np_random_seed (getSeed cfg) with
       | .error e => .failure (write_error_metrics (cfg.lookup "version") e)
       | .ok _ =>
         match loadDataFile i with
         | .error e => .failure (write_error_metrics (cfg.lookup "version") e)
         | .ok df => .success (compute_metrics (process df (getWindow cfg))
             (getVersion cfg) (getSeed cfg) l)) := by
  unfold main
  rw [hc]

/-- C7 (amended): any stage error — config validation, the
`np.random.seed` range check, or data loading — is routed to an
ErrorMetrics record with status "error" and exit code 1; its version field
is the config's version when the config step had already succeeded and
that version is truthy, and the literal "unknown" otherwise (config
failure or falsy version); a run with no exception exits with code 0. -/
theorem main_error_routing (c : Option (Option (List (String × Value))))
    (i : Option (List String)) (l : ℤ) :
    (∀ e, loadConfigFile c = .error e →
      main c i l = .failure ⟨.vstr "unknown", "error", e⟩ ∧
        exitCode (main c i l) = 1) ∧
    (∀ cfg, loadConfigFile c = .ok cfg →
      (∀ e, np_random_seed (getSeed cfg) = .error e →
        main c i l = .failure
          ⟨if truthy (getVersion cfg) then getVersion cfg else .vstr "unknown",
            "error", e⟩ ∧ exitCode (main c i l) = 1) ∧
      (np_random_seed (getSeed cfg) = .ok () →
        (∀ e, loadDataFile i = .error e →
          main c i l = .failure
            ⟨if truthy (getVersion cfg) then getVersion cfg
              else .vstr "unknown", "error", e⟩ ∧
            exitCode (main c i l) = 1) ∧
        (∀ df, loadDataFile i = .ok df →
          main c i l = .success (compute_metrics (process df (getWindow cfg))
            (getVersion cfg) (getSeed cfg) l) ∧
            exitCode (main c i l) = 0))) := by
  cases hc : loadConfigFile c with
  | error e0 =>
    constructor
    · intro e he
      obtain rfl := Except.error.inj he
      unfold main
      rw [hc]
      exact ⟨rfl, rfl⟩
    · intro cfg hcfg
      exact Except.noConfusion hcfg
  | ok cfg =>
    constructor
    · intro e he
      exact Except.noConfusion he
    · intro cfg' hcfg'
      obtain rfl := Except.ok.inj hcfg'
      have hv := loadConfigFile_ok_version c cfg hc
      obtain ⟨v, hlook⟩ := Option.isSome_iff_exists.mp hv
      have hgv : getVersion cfg = v := by
        unfold getVersion
        rw [hlook]
        rfl
      constructor
      · intro e he
        rw [main_ok_config c i l cfg hc, he]
        refine ⟨?_, rfl⟩
        show RunResult.failure (write_error_metrics (cfg.lookup "version") e) =
          RunResult.failure ⟨if truthy (getVersion cfg) then getVersion cfg
            else .vstr "unknown", "error", e⟩
        rw [hlook, hgv]
        rfl
      · intro hs
        constructor
        · intro e he
          rw [main_ok_config c i l cfg hc, hs, he]
          refine ⟨?_, rfl⟩
          show RunResult.failure (write_error_metrics (cfg.lookup "version") e) =
            RunResult.failure ⟨if truthy (getVersion cfg) then getVersion cfg
              else .vstr "unknown", "error", e⟩
          rw [hlook, hgv]
          rfl
        · intro df hdf
          rw [main_ok_config c i l cfg hc, hs, hdf]
          exact ⟨rfl, rfl⟩

/-- Witness for the amended C7: a missing config file routes to the error
record with version "unknown" and exit code 1, and a negative seed —
accepted by `load_config` — fails the `np.random.seed` range check and is
routed to the error record with the config's (truthy) version. -/
theorem main_error_routing_witness :
    (main none none 0 =
        .failure ⟨.vstr "unknown", "error", "Config file not found"⟩ ∧
      exitCode (main none none 0) = 1) ∧
    main (some (some [("seed", Value.vint (-1)), ("window", Value.vint 1),
        ("version", Value.vstr "v1")])) none 0 =
      .failure ⟨.vstr "v1", "error", "Seed must be between 0 and 2**32 - 1"⟩ := by
  refine ⟨(main_error_routing none none 0).1 "Config file not found" rfl, ?_⟩
  have h := (((main_error_routing (some (some [("seed", Value.vint (-1)),
      ("window", Value.vint 1), ("version", Value.vstr "v1")])) none 0).2
    [("seed", Value.vint (-1)), ("window", Value.vint 1),
      ("version", Value.vstr "v1")] rfl).1
    "Seed must be between 0 and 2**32 - 1" rfl).1
  rw [h]
  decide

/-! ## Rolling-mean lemmas -/

theorem getD_map_of_lt {α β : Type} (l : List α) (f : α → β) (i : ℕ) (d : β)
    (d₀ : α) (h : i < l.length) : (l.map f).getD i d = f (l.getD i d₀) := by
  rw [List.getD_eq_getElem?_getD, List.getElem?_eq_getElem (by simpa using h),
    List.getD_eq_getElem?_getD, List.getElem?_eq_getElem h]
  simp

theorem getD_zipWith_of_lt {α β γ : Type} (f : α → β → γ) (a : List α)
    (b : List β) (i : ℕ) (d : γ) (da : α) (db : β) (ha : i < a.length)
    (hb : i < b.length) :
    (List.zipWith f a b).getD i d = f (a.getD i da) (b.getD i db) := by
  rw [List.getD_eq_getElem?_getD,
    List.getElem?_eq_getElem (by simp; omega),
    List.getD_eq_getElem?_getD, List.getElem?_eq_getElem ha,
    List.getD_eq_getElem?_getD, List.getElem?_eq_getElem hb]
  simp [List.getElem_zipWith]

theorem slice_eq (xs : List (Option ℚ)) (i w : ℕ) (hw : w ≤ i + 1)
    (hi : i < xs.length) :
    (xs.take (i + 1)).drop (i + 1 - w) =
      (List.range w).map (fun k => xs.getD (i + 1 - w + k) none) := by
  apply List.ext_getElem
  · simp
    omega
  · intro j h1 h2
    simp only [List.length_drop, List.length_take] at h1
    simp only [List.getElem_drop, List.getElem_take, List.getElem_map,
      List.getElem_range]
    rw [List.getD_eq_getElem?_getD, List.getElem?_eq_getElem (by omega)]
    simp

theorem rollingMean_getD (w : ℕ) (xs : List (Option ℚ)) (i : ℕ)
    (hi : i < xs.length) :
    (rollingMean w xs).getD i none =
      (if i + 1 < w then none
       else if ((xs.take (i + 1)).drop (i + 1 - w)).all Option.isSome then
         some (((((xs.take (i + 1)).drop (i + 1 - w)).map
           (fun o => o.getD 0)).sum) / (w : ℚ))
       else none) := by
  unfold rollingMean
  exact getD_range_map _ _ _ _ hi

theorem mem_Icc_window (a w j : ℕ) (hw : 0 < w) :
    j ∈ Finset.Icc a (a + w - 1) ↔ ∃ k, k < w ∧ j = a + k := by
  rw [Finset.mem_Icc]
  constructor
  · rintro ⟨h1, h2⟩
    exact ⟨j - a, by omega, by omega⟩
  · rintro ⟨k, hk, rfl⟩
    omega

theorem sum_Icc_window (f : ℕ → ℚ) (a w : ℕ) (hw : 0 < w) :
    ∑ j ∈ Finset.Icc a (a + w - 1), f j = ∑ k ∈ Finset.range w, f (a + k) := by
  have h1 : Finset.Icc a (a + w - 1) = Finset.Ico a (a + w) := by
    rw [← Nat.Ico_succ_right]
    congr 1
    omega
  rw [h1, Finset.sum_Ico_eq_sum_range]
  have h2 : a + w - a = w := by omega
  rw [h2]

/-! ## C1 -/

/-- C1: `process` appends a `rolling_mean` column whose entry at row `i`
is the arithmetic mean of `close[i-window+1 .. i]` when `i ≥ window-1` and
every value in that trailing window is present; it is missing when
`i < window-1`, and missing whenever any value inside the window is
missing (propagation, not skip). -/
theorem process_rolling_mean_spec (df : DataFrame) (w : ℕ) (hw : 0 < w)
    (i : ℕ) (hi : i < (closeVals df).length) :
    (i < w - 1 →
      ((getCol (process df w) "rolling_mean").getD []).getD i (.str "") =
        .num none) ∧
    (w - 1 ≤ i →
      ((∀ j ∈ Finset.Icc (i + 1 - w) i, ((closeVals df).getD j none).isSome) →
        ((getCol (process df w) "rolling_mean").getD []).getD i (.str "") =
          .num (some ((∑ j ∈ Finset.Icc (i + 1 - w) i,
            ((closeVals df).getD j none).getD 0) / (w : ℚ)))) ∧
      ((∃ j ∈ Finset.Icc (i + 1 - w) i, (closeVals df).getD j none = none) →
        ((getCol (process df w) "rolling_mean").getD []).getD i (.str "") =
          .num none)) := by
  set xs := closeVals df with hxs
  have hcell : ((getCol (process df w) "rolling_mean").getD []).getD i (.str "") =
      Cell.num ((rollingMean w xs).getD i none) := by
    rw [getCol_process_rolling_mean]
    exact getD_map_of_lt _ _ _ _ _ (by rw [rollingMean_length]; exact hi)
  have hrm := rollingMean_getD w xs i hi
  constructor
  · intro hlt
    rw [hcell, hrm, if_pos (by omega)]
  · intro hge
    have hw2 : w ≤ i + 1 := by omega
    have hIcc : Finset.Icc (i + 1 - w) i =
        Finset.Icc (i + 1 - w) ((i + 1 - w) + w - 1) := by
      congr 1
      omega
    have hslice := slice_eq xs i w hw2 hi
    constructor
    · intro hall
      have hallb : ((xs.take (i + 1)).drop (i + 1 - w)).all Option.isSome = true := by
        rw [hslice, List.all_eq_true]
        intro x hx
        obtain ⟨k, hkmem, rfl⟩ := List.mem_map.mp hx
        have hk := List.mem_range.mp hkmem
        apply hall
        rw [hIcc, mem_Icc_window _ _ _ hw]
        exact ⟨k, hk, rfl⟩
      rw [hcell, hrm, if_neg (by omega), if_pos hallb]
      have hsum : (((xs.take (i + 1)).drop (i + 1 - w)).map
          (fun o => o.getD 0)).sum =
          ∑ j ∈ Finset.Icc (i + 1 - w) i, (xs.getD j none).getD 0 := by
        rw [hslice, List.map_map, list_range_map_sum, hIcc,
          sum_Icc_window (fun j => (xs.getD j none).getD 0) (i + 1 - w) w hw]
        rfl
      rw [hsum]
    · intro hex
      have hallb : ((xs.take (i + 1)).drop (i + 1 - w)).all Option.isSome = false := by
        obtain ⟨j, hjmem, hjnone⟩ := hex
        rw [hIcc, mem_Icc_window _ _ _ hw] at hjmem
        obtain ⟨k, hk, rfl⟩ := hjmem
        rw [hslice, List.all_eq_false]
        refine ⟨none, ?_, by simp⟩
        rw [List.mem_map]
        exact ⟨k, List.mem_range.mpr hk, hjnone⟩
      rw [hcell, hrm, if_neg (by omega), if_neg (by simp [hallb])]

/-- Witness for C1 on close = [10, 20] with window 2: row 0 is missing,
row 1 is the window mean. -/
theorem process_rolling_mean_spec_witness :
    ((getCol (process ⟨[("close", [Cell.num (some 10), Cell.num (some 20)])]⟩ 2)
        "rolling_mean").getD []).getD 0 (.str "") = .num none ∧
    ((getCol (process ⟨[("close", [Cell.num (some 10), Cell.num (some 20)])]⟩ 2)
        "rolling_mean").getD []).getD 1 (.str "") =
      .num (some ((∑ j ∈ Finset.Icc 0 1,
        ((closeVals ⟨[("close", [Cell.num (some 10), Cell.num (some 20)])]⟩).getD j
          none).getD 0) / (2 : ℚ))) :=
  ⟨(process_rolling_mean_spec _ 2 (by decide) 0 (by decide)).1 (by decide),
    ((process_rolling_mean_spec _ 2 (by decide) 1 (by decide)).2 (by decide)).1
      (by decide)⟩

/-! ## C2 -/

/-- C2: the appended signal at row `i` is 1 iff `close[i]` and the appended
`rolling_mean[i]` are both present and `close[i]` is strictly greater; in
every other case (including a missing operand) it is 0. -/
theorem process_signal_spec (df : DataFrame) (w : ℕ) (i : ℕ)
    (hi : i < (closeVals df).length) :
    ((((getCol (process df w) "signal").getD []).getD i (.str "") =
        .num (some 1)) ↔
      (((closeVals df).getD i none).isSome ∧
        (cellNum (((getCol (process df w) "rolling_mean").getD []).getD i
          (.num none))).isSome ∧
        (cellNum (((getCol (process df w) "rolling_mean").getD []).getD i
          (.num none))).getD 0 < ((closeVals df).getD i none).getD 0)) ∧
    (¬ (((closeVals df).getD i none).isSome ∧
        (cellNum (((getCol (process df w) "rolling_mean").getD []).getD i
          (.num none))).isSome ∧
        (cellNum (((getCol (process df w) "rolling_mean").getD []).getD i
          (.num none))).getD 0 < ((closeVals df).getD i none).getD 0) →
      ((getCol (process df w) "signal").getD []).getD i (.str "") =
        .num (some 0)) := by
  set xs := closeVals df with hxs
  have hmcell : cellNum (((getCol (process df w) "rolling_mean").getD []).getD i
      (Cell.num none)) = (rollingMean w xs).getD i none := by
    rw [getCol_process_rolling_mean, Option.getD_some]
    rw [getD_map_of_lt _ Cell.num i (Cell.num none) none
      (by rw [rollingMean_length]; exact hi)]
    rfl
  have hscell : ((getCol (process df w) "signal").getD []).getD i (.str "") =
      Cell.num ((signalOf xs (rollingMean w xs)).getD i none) := by
    rw [getCol_process_signal]
    exact getD_map_of_lt _ _ _ _ none
      (by rw [signalOf_length, rollingMean_length, Nat.min_self]; exact hi)
  have hsig : (signalOf xs (rollingMean w xs)).getD i none =
      (match xs.getD i none, (rollingMean w xs).getD i none with
        | some c, some m => if m < c then some (1 : ℚ) else some 0
        | _, _ => some 0) := by
    unfold signalOf
    exact getD_zipWith_of_lt _ _ _ i none none none hi
      (by rw [rollingMean_length]; exact hi)
  rw [hscell, hsig, hmcell]
  cases hc : xs.getD i none with
  | none =>
    refine ⟨⟨fun h1 => ?_, fun h2 => ?_⟩, fun _ => rfl⟩
    · have h3 : (0 : ℚ) = 1 := Option.some.inj (Cell.num.inj h1)
      norm_num at h3
    · obtain ⟨hcs, _⟩ := h2
      simp at hcs
  | some c =>
    cases hm : (rollingMean w xs).getD i none with
    | none =>
      refine ⟨⟨fun h1 => ?_, fun h2 => ?_⟩, fun _ => rfl⟩
      · have h3 : (0 : ℚ) = 1 := Option.some.inj (Cell.num.inj h1)
        norm_num at h3
      · obtain ⟨_, hms, _⟩ := h2
        simp at hms
    | some m =>
      by_cases hlt : m < c
      · constructor
        · exact ⟨fun _ => ⟨rfl, rfl, by simpa using hlt⟩,
            fun _ => by rw [show ((match (some c : Option ℚ),
              (some m : Option ℚ) with
              | some c, some m => if m < c then some (1 : ℚ) else some 0
              | _, _ => some 0)) = if m < c then some (1 : ℚ) else some 0
              from rfl, if_pos hlt]⟩
        · intro hn
          exact absurd ⟨rfl, rfl, by simpa using hlt⟩ hn
      · constructor
        · refine ⟨fun h1 => ?_, fun h2 => ?_⟩
          · rw [show ((match (some c : Option ℚ), (some m : Option ℚ) with
              | some c, some m => if m < c then some (1 : ℚ) else some 0
              | _, _ => some 0)) = if m < c then some (1 : ℚ) else some 0
              from rfl, if_neg hlt] at h1
            have h3 : (0 : ℚ) = 1 := Option.some.inj (Cell.num.inj h1)
            norm_num at h3
          · obtain ⟨_, _, hmc⟩ := h2
            exact absurd (by simpa using hmc) hlt
        · intro _
          rw [show ((match (some c : Option ℚ), (some m : Option ℚ) with
            | some c, some m => if m < c then some (1 : ℚ) else some 0
            | _, _ => some 0)) = if m < c then some (1 : ℚ) else some 0
            from rfl, if_neg hlt]

/-- Witness for C2 on close = [10, 20] with window 2: at row 0 the rolling
mean is missing, so the signal is 0. -/
theorem process_signal_spec_witness :
    ((getCol (process ⟨[("close", [Cell.num (some 10), Cell.num (some 20)])]⟩ 2)
        "signal").getD []).getD 0 (.str "") = .num (some 0) :=
  (process_signal_spec ⟨[("close", [Cell.num (some 10), Cell.num (some 20)])]⟩
    2 0 (by decide)).2 (by decide)

/-! ## C3 -/

theorem signalOf_isSome (c m : List (Option ℚ)) :
    ∀ o ∈ signalOf c m, o.isSome = true := by
  induction c generalizing m with
  | nil =>
    intro o ho
    simp [signalOf] at ho
  | cons a t ih =>
    intro o ho
    cases m with
    | nil => simp [signalOf] at ho
    | cons b s =>
      unfold signalOf at ho
      rw [List.zipWith_cons_cons] at ho
      rcases List.mem_cons.mp ho with h | h
      · subst h
        cases a with
        | none => rfl
        | some av =>
          cases b with
          | none => rfl
          | some bv =>
            by_cases hlt : bv < av
            · simp [hlt]
            · simp [hlt]
      · exact ih s o h

/-- C3: on a processed dataset, `compute_metrics` reports `value` equal to
the arithmetic mean of the full signal column rounded to 4 decimal places,
`rows_processed` equal to the dataset's row count, the fixed metric name
"signal_rate" and status "success". -/
theorem compute_metrics_spec (df : DataFrame) (w : ℕ) (version : Value)
    (seed latency_ms : ℤ) (hwf : wellFormed df) (hc : hasCol df "close" = true)
    (hn : 0 < nrows df) :
    (compute_metrics (process df w) version seed latency_ms).value =
      round4 ((((getCol (process df w) "signal").getD []).map
          (fun cl => (cellNum cl).getD 0)).sum /
        (((getCol (process df w) "signal").getD []).length : ℚ)) ∧
    (compute_metrics (process df w) version seed latency_ms).rows_processed =
      nrows df ∧
    (compute_metrics (process df w) version seed latency_ms).metric =
      "signal_rate" ∧
    (compute_metrics (process df w) version seed latency_ms).status =
      "success" := by
  refine ⟨?_, nrows_process df w hwf hc, rfl, rfl⟩
  show round4 (seriesMean ((getCol (process df w) "signal").getD [])) = _
  rw [getCol_process_signal, Option.getD_some]
  set sg := signalOf (closeVals df) (rollingMean w (closeVals df)) with hsg
  unfold seriesMean
  rw [List.filterMap_map]
  have h1 : sg.filterMap (cellNum ∘ Cell.num) = sg.filterMap id := rfl
  rw [h1, filterMap_id_of_all_isSome sg 0 (signalOf_isSome _ _)]
  rw [List.map_map]
  have h2 : ((fun cl => (cellNum cl).getD 0) ∘ Cell.num) =
      (fun o : Option ℚ => o.getD 0) := rfl
  rw [h2]
  simp only [List.length_map]

/-- Witness for C3 on a one-row dataset with window 1. -/
theorem compute_metrics_spec_witness :
    (compute_metrics (process ⟨[("close", [Cell.num (some 10)])]⟩ 1)
        (Value.vstr "v1") 0 0).value =
      round4 ((((getCol (process ⟨[("close", [Cell.num (some 10)])]⟩ 1)
          "signal").getD []).map (fun cl => (cellNum cl).getD 0)).sum /
        (((getCol (process ⟨[("close", [Cell.num (some 10)])]⟩ 1)
          "signal").getD []).length : ℚ)) ∧
    (compute_metrics (process ⟨[("close", [Cell.num (some 10)])]⟩ 1)
        (Value.vstr "v1") 0 0).rows_processed = 1 :=
  ⟨(compute_metrics_spec ⟨[("close", [Cell.num (some 10)])]⟩ 1
      (Value.vstr "v1") 0 0 (by decide) (by decide) (by decide)).1,
    (compute_metrics_spec ⟨[("close", [Cell.num (some 10)])]⟩ 1
      (Value.vstr "v1") 0 0 (by decide) (by decide) (by decide)).2.1⟩

/-! ## C10 -/

theorem rollingMean_all_none (w : ℕ) (xs : List (Option ℚ))
    (h : xs.length < w) : rollingMean w xs = List.replicate xs.length none := by
  apply List.ext_getElem
  · simp [rollingMean_length]
  · intro i h1 h2
    rw [rollingMean_length] at h1
    unfold rollingMean
    simp only [List.getElem_map, List.getElem_range, List.getElem_replicate]
    rw [if_pos (by omega)]

theorem signalOf_replicate_none (xs : List (Option ℚ)) :
    signalOf xs (List.replicate xs.length none) =
      List.replicate xs.length (some 0) := by
  induction xs with
  | nil => rfl
  | cons a t ih =>
    have h1 : (a :: t).length = t.length + 1 := rfl
    rw [h1, List.replicate_succ, List.replicate_succ]
    unfold signalOf
    rw [List.zipWith_cons_cons]
    congr 1
    cases a <;> rfl

theorem filterMap_cellNum_replicate (n : ℕ) :
    (List.replicate n (Cell.num (some (0 : ℚ)))).filterMap cellNum =
      List.replicate n (0 : ℚ) := by
  induction n with
  | zero => rfl
  | succ n ih =>
    rw [List.replicate_succ, List.replicate_succ]
    show (0 : ℚ) :: (List.replicate n (Cell.num (some (0 : ℚ)))).filterMap cellNum =
      (0 : ℚ) :: List.replicate n (0 : ℚ)
    rw [ih]

theorem round4_zero : round4 0 = 0 := by
  unfold round4 roundHalfEven
  norm_num

/-- C10: on a dataset with 1 ≤ N < window rows the pipeline still succeeds:
every rolling_mean entry is missing, every signal entry is 0, the reported
value is 0.0 and rows_processed is N. -/
theorem small_dataset_spec (df : DataFrame) (w : ℕ) (version : Value)
    (seed latency_ms : ℤ) (hwf : wellFormed df) (hc : hasCol df "close" = true)
    (hn : 0 < nrows df) (hlt : nrows df < w) :
    getCol (process df w) "rolling_mean" =
      some (List.replicate (nrows df) (Cell.num none)) ∧
    getCol (process df w) "signal" =
      some (List.replicate (nrows df) (Cell.num (some 0))) ∧
    (compute_metrics (process df w) version seed latency_ms).value = 0 ∧
    (compute_metrics (process df w) version seed latency_ms).rows_processed =
      nrows df := by
  have hcl : (closeVals df).length = nrows df := closeVals_length df hwf hc
  have hrm : rollingMean w (closeVals df) =
      List.replicate (closeVals df).length none :=
    rollingMean_all_none w _ (by omega)
  have hsg : signalOf (closeVals df) (rollingMean w (closeVals df)) =
      List.replicate (closeVals df).length (some 0) := by
    rw [hrm]
    exact signalOf_replicate_none _
  refine ⟨?_, ?_, ?_, nrows_process df w hwf hc⟩
  · rw [getCol_process_rolling_mean, hrm, List.map_replicate, hcl]
  · rw [getCol_process_signal, hsg, List.map_replicate, hcl]
  · show round4 (seriesMean ((getCol (process df w) "signal").getD [])) = 0
    rw [getCol_process_signal, Option.getD_some, hsg, List.map_replicate]
    unfold seriesMean
    rw [filterMap_cellNum_replicate]
    show round4 ((List.replicate (closeVals df).length (0 : ℚ)).sum /
      ((List.replicate (closeVals df).length (0 : ℚ)).length : ℚ)) = 0
    rw [List.sum_replicate, smul_zero, zero_div]
    exact round4_zero

/-- Witness for C10 on a one-row dataset with window 2. -/
theorem small_dataset_spec_witness :
    getCol (process ⟨[("close", [Cell.num (some 5)])]⟩ 2) "rolling_mean" =
      some [Cell.num none] ∧
    getCol (process ⟨[("close", [Cell.num (some 5)])]⟩ 2) "signal" =
      some [Cell.num (some 0)] ∧
    (compute_metrics (process ⟨[("close", [Cell.num (some 5)])]⟩ 2)
        (Value.vstr "v1") 0 0).value = 0 ∧
    (compute_metrics (process ⟨[("close", [Cell.num (some 5)])]⟩ 2)
        (Value.vstr "v1") 0 0).rows_processed = 1 :=
  small_dataset_spec ⟨[("close", [Cell.num (some 5)])]⟩ 2 (Value.vstr "v1")
    0 0 (by decide) (by decide) (by decide) (by decide)

/-! ## C9 -/

/-- C9: the transform from parsed config and input data to the reported
"value" and "rows_processed" is a deterministic function of its inputs —
two runs on identical config and data (same window and seed) agree on both
fields, whatever their latencies. -/
theorem deterministic_metrics (c : Option (Option (List (String × Value))))
    (i : Option (List String)) (l1 l2 : ℤ) (m1 m2 : SuccessMetrics)
    (h1 : main c i l1 = .success m1) (h2 : main c i l2 = .success m2) :
    m1.value = m2.value ∧ m1.rows_processed = m2.rows_processed := by
  cases hc : loadConfigFile c with
  | error e =>
    unfold main at h1
    rw [hc] at h1
    exact RunResult.noConfusion h1
  | ok cfg =>
    rw [main_ok_config c i l1 cfg hc] at h1
    rw [main_ok_config c i l2 cfg hc] at h2
    cases hs : np_random_seed (getSeed cfg) with
    | error e =>
      rw [hs] at h1
      exact RunResult.noConfusion h1
    | ok u =>
      rw [hs] at h1 h2
      cases hd : loadDataFile i with
      | error e =>
        rw [hd] at h1
        exact RunResult.noConfusion h1
      | ok df =>
        rw [hd] at h1 h2
        obtain rfl := RunResult.success.inj h1
        obtain rfl := RunResult.success.inj h2
        exact ⟨rfl, rfl⟩

/-- Witness for C9: the spec's round-trip inputs run with latencies 5
and 7 agree on value and rows_processed. -/
theorem deterministic_metrics_witness :
    runValue (main (some (some [("seed", Value.vint 1),
        ("window", Value.vint 2), ("version", Value.vstr "v1")]))
      (some ["close", "10", "20", "15"]) 5) =
      runValue (main (some (some [("seed", Value.vint 1),
        ("window", Value.vint 2), ("version", Value.vstr "v1")]))
      (some ["close", "10", "20", "15"]) 7) ∧
    runRows (main (some (some [("seed", Value.vint 1),
        ("window", Value.vint 2), ("version", Value.vstr "v1")]))
      (some ["close", "10", "20", "15"]) 5) =
      runRows (main (some (some [("seed", Value.vint 1),
        ("window", Value.vint 2), ("version", Value.vstr "v1")]))
      (some ["close", "10", "20", "15"]) 7) := by
  obtain ⟨hv, hr⟩ := deterministic_metrics
    (some (some [("seed", Value.vint 1), ("window", Value.vint 2),
      ("version", Value.vstr "v1")]))
    (some ["close", "10", "20", "15"]) 5 7 _ _ rfl rfl
  exact ⟨congrArg some hv, congrArg some hr⟩

/-! ## `load_data` shape lemmas (C5, C8) -/

theorem splitOnChar_ne_nil (sep : Char) (cs : List Char) :
    splitOnChar sep cs ≠ [] := by
  cases cs with
  | nil => simp [splitOnChar]
  | cons c rest =>
    simp only [splitOnChar]
    split <;> simp

theorem csvHeader_ne_nil (lines : List String) : csvHeader lines ≠ [] := by
  unfold csvHeader splitComma splitC
  intro h
  exact splitOnChar_ne_nil ',' _ (List.map_eq_nil.mp h)

theorem loadedFrame_names (lines : List String) :
    (loadedFrame lines).cols.map Prod.fst = (csvHeader lines).map normName := by
  unfold loadedFrame
  rw [List.map_map]
  have h : (Prod.fst ∘ loadedEntry lines) =
      (fun j => normName ((csvHeader lines).getD j "")) := rfl
  rw [h]
  exact range_map_getD _ "" normName

theorem nrows_range_map (n : ℕ) (f : ℕ → String × List Cell) :
    nrows ⟨(List.range (n + 1)).map f⟩ = (f 0).2.length := by
  rw [List.range_succ_eq_map, List.map_cons]
  rfl

theorem nrows_loadedFrame (lines : List String) :
    nrows (loadedFrame lines) = (csvRows lines).length := by
  have hH := csvHeader_ne_nil lines
  unfold loadedFrame
  cases hl : (csvHeader lines).length with
  | zero => exact absurd (List.length_eq_zero.mp hl) hH
  | succ n =>
    rw [nrows_range_map]
    unfold loadedEntry
    dsimp only
    split <;> simp [rawCol]

theorem hasCol_loadedFrame_true (lines : List String) (n : String)
    (h : n ∈ (csvHeader lines).map normName) :
    hasCol (loadedFrame lines) n = true := by
  rw [hasCol_iff_mem, loadedFrame_names]
  exact h

theorem hasCol_loadedFrame_false (lines : List String) (n : String)
    (h : n ∉ (csvHeader lines).map normName) :
    hasCol (loadedFrame lines) n = false := by
  rw [Bool.eq_false_iff]
  intro hc
  rw [hasCol_iff_mem, loadedFrame_names] at hc
  exact h hc

theorem foldl_max_const (n : ℕ) (t : List (List String)) :
    ∀ a : ℕ, (∀ r ∈ t, r.length = n) →
      t.foldl (fun m r => max m r.length) a =
        (if t.isEmpty then a else max a n) := by
  induction t with
  | nil =>
    intro a _
    rfl
  | cons r s ih =>
    intro a h
    have hr : r.length = n := h r (List.mem_cons_self r s)
    rw [List.foldl_cons,
      ih (max a r.length) (fun q hq => h q (List.mem_cons_of_mem _ hq)), hr]
    rw [if_neg (by simp : ¬ ((r :: s).isEmpty = true))]
    by_cases hs : s.isEmpty = true
    · rw [if_pos hs]
    · rw [if_neg hs, max_assoc, max_self]

theorem mkDataFrame_rect (rows : List (List String)) (header : List String)
    (hrect : ∀ r ∈ rows, r.length = header.length) :
    mkDataFrame rows header = .ok ⟨(List.range header.length).map (fun j =>
      (header.getD j "", rows.map (fun r => Cell.str (r.getD j ""))))⟩ := by
  have hcond : ¬ (rows ≠ [] ∧
      rows.foldl (fun m r => max m r.length) 0 ≠ header.length) := by
    rintro ⟨hne, hfold⟩
    apply hfold
    rw [foldl_max_const header.length rows 0 hrect,
      if_neg (fun hT => hne (List.isEmpty_iff.mp hT))]
    simp
  unfold mkDataFrame
  rw [if_neg hcond]
  refine congrArg (fun l => Except.ok (DataFrame.mk l)) ?_
  apply range_map_congr
  intro j hj
  refine congrArg (fun col => (header.getD j "", col)) ?_
  apply List.map_congr_left
  intro r hr
  rw [if_pos (by rw [hrect r hr]; exact hj)]

theorem bind_throw_eq {ε α β : Type} (e : ε) (f : α → Except ε β) :
    ((throw e : Except ε α) >>= f) = .error e := rfl

theorem getD_mem_of_lt {α : Type} (l : List α) (i : ℕ) (d : α)
    (h : i < l.length) : l.getD i d ∈ l := by
  rw [List.getD_eq_getElem?_getD, List.getElem?_eq_getElem h]
  exact List.getElem_mem h

theorem load_data_body_ok (l0 : String) (rest : List String)
    (hrect : ∀ r ∈ csvRows (l0 :: rest),
      r.length = (csvHeader (l0 :: rest)).length)
    (hclose : ((csvHeader (l0 :: rest)).map normName).count "close" ≤ 1) :
    load_data_body (l0 :: rest) = .ok (loadedFrame (l0 :: rest)) := by
  rw [load_data_body_cons l0 rest, mkDataFrame_rect _ _ hrect]
  simp only [buildFrame]
  have hren : renameCols ⟨(List.range (csvHeader (l0 :: rest)).length).map
      (fun j => ((csvHeader (l0 :: rest)).getD j "",
        (csvRows (l0 :: rest)).map (fun r => Cell.str (r.getD j ""))))⟩ =
      ⟨(List.range (csvHeader (l0 :: rest)).length).map
        (fun j => (normName ((csvHeader (l0 :: rest)).getD j ""),
          (rawCol (l0 :: rest) j).map Cell.str))⟩ := by
    unfold renameCols
    rw [List.map_map]
    refine congrArg DataFrame.mk ?_
    apply range_map_congr
    intro j hj
    unfold rawCol
    rw [List.map_map]
    rfl
  rw [hren]
  have hnamesR : (⟨(List.range (csvHeader (l0 :: rest)).length).map
      (fun j => (normName ((csvHeader (l0 :: rest)).getD j ""),
        (rawCol (l0 :: rest) j).map Cell.str))⟩ : DataFrame).cols.map Prod.fst =
      (csvHeader (l0 :: rest)).map normName := by
    rw [List.map_map]
    exact range_map_getD _ "" normName
  rcases Nat.le_one_iff_eq_zero_or_eq_one.mp hclose with h0 | h1
  · have hno : "close" ∉ (csvHeader (l0 :: rest)).map normName :=
      List.count_eq_zero.mp h0
    have hnc : hasCol ⟨(List.range (csvHeader (l0 :: rest)).length).map
        (fun j => (normName ((csvHeader (l0 :: rest)).getD j ""),
          (rawCol (l0 :: rest) j).map Cell.str))⟩ "close" = false := by
      rw [Bool.eq_false_iff]
      intro hc
      rw [hasCol_iff_mem, hnamesR] at hc
      exact hno hc
    rw [if_neg (by intro hcc; rw [hnc] at hcc; exact Bool.noConfusion hcc)]
    refine congrArg (fun l => Except.ok (DataFrame.mk l)) ?_
    apply range_map_congr
    intro j hj
    have hj' : normName ((csvHeader (l0 :: rest)).getD j "") ≠ "close" := by
      intro hcj
      exact hno (hcj ▸ List.mem_map_of_mem normName
        (getD_mem_of_lt _ j "" hj))
    unfold loadedEntry
    rw [if_neg hj']
  · have hmem : "close" ∈ (csvHeader (l0 :: rest)).map normName :=
      List.count_pos_iff.mp (by omega)
    have hyc : hasCol ⟨(List.range (csvHeader (l0 :: rest)).length).map
        (fun j => (normName ((csvHeader (l0 :: rest)).getD j ""),
          (rawCol (l0 :: rest) j).map Cell.str))⟩ "close" = true := by
      rw [hasCol_iff_mem, hnamesR]
      exact hmem
    rw [if_pos hyc]
    unfold coerceClose
    rw [if_pos (by rw [countP_names, hnamesR, ← List.count_eq_countP]; exact h1)]
    refine congrArg (fun l => Except.ok (DataFrame.mk l)) ?_
    rw [List.map_map]
    apply range_map_congr
    intro j hj
    dsimp only [Function.comp]
    by_cases hcj : normName ((csvHeader (l0 :: rest)).getD j "") = "close"
    · rw [if_pos hcj]
      unfold loadedEntry
      rw [if_pos hcj, List.map_map]
      rfl
    · rw [if_neg hcj]
      unfold loadedEntry
      rw [if_neg hcj]

theorem load_data_of_body_ok (lines : List String) (df : DataFrame)
    (hb : load_data_body lines = .ok df) :
    load_data lines =
      (if dfEmpty df then .error "CSV is empty"
       else if ¬ hasCol df "close" then .error "Missing required column: close"
       else .ok df) := by
  unfold load_data
  rw [hb]
  simp only [postChecks]

theorem dfEmpty_loadedFrame_false (l0 : String) (rest : List String)
    (hN : csvRows (l0 :: rest) ≠ []) :
    dfEmpty (loadedFrame (l0 :: rest)) = false := by
  have h1 : (loadedFrame (l0 :: rest)).cols.isEmpty = false := by
    rw [List.isEmpty_eq_false]
    unfold loadedFrame
    dsimp only
    rw [Ne, List.map_eq_nil_iff, List.range_eq_nil]
    intro h0
    exact csvHeader_ne_nil (l0 :: rest) (List.length_eq_zero.mp h0)
  have h2 : nrows (loadedFrame (l0 :: rest)) ≠ 0 := by
    rw [nrows_loadedFrame]
    intro h0
    exact hN (List.length_eq_zero.mp h0)
  unfold dfEmpty
  rw [h1]
  simp [h2]

theorem loadedFrame_col (lines : List String) (j : ℕ)
    (hj : j < (csvHeader lines).length) :
    (loadedFrame lines).cols.getD j ("", []) = loadedEntry lines j := by
  unfold loadedFrame
  exact getD_range_map _ _ _ _ hj

theorem loadedEntry_close (lines : List String) (j : ℕ)
    (h : normName ((csvHeader lines).getD j "") = "close") :
    loadedEntry lines j =
      ("close", (rawCol lines j).map (fun s => Cell.num (parseNumeric s))) := by
  unfold loadedEntry
  rw [if_pos h, h]

theorem loadedEntry_other (lines : List String) (j : ℕ)
    (h : normName ((csvHeader lines).getD j "") ≠ "close") :
    loadedEntry lines j =
      (normName ((csvHeader lines).getD j ""), (rawCol lines j).map Cell.str) := by
  unfold loadedEntry
  rw [if_neg h]

theorem load_data_ok (l0 : String) (rest : List String)
    (hrect : ∀ r ∈ csvRows (l0 :: rest),
      r.length = (csvHeader (l0 :: rest)).length)
    (hclose : ((csvHeader (l0 :: rest)).map normName).count "close" = 1)
    (hN : csvRows (l0 :: rest) ≠ []) :
    load_data (l0 :: rest) = .ok (loadedFrame (l0 :: rest)) := by
  have hb := load_data_body_ok l0 rest hrect (le_of_eq hclose)
  have hde : ¬ dfEmpty (loadedFrame (l0 :: rest)) = true := by
    rw [dfEmpty_loadedFrame_false l0 rest hN]
    simp
  have hmem : "close" ∈ (csvHeader (l0 :: rest)).map normName :=
    List.count_pos_iff.mp (by omega)
  rw [load_data_of_body_ok _ _ hb, if_neg hde,
    if_neg (fun hn => hn (hasCol_loadedFrame_true _ _ hmem))]

theorem load_data_missing_close (l0 : String) (rest : List String)
    (hrect : ∀ r ∈ csvRows (l0 :: rest),
      r.length = (csvHeader (l0 :: rest)).length)
    (hclose : ((csvHeader (l0 :: rest)).map normName).count "close" = 0)
    (hN : csvRows (l0 :: rest) ≠ []) :
    load_data (l0 :: rest) = .error "Missing required column: close" := by
  have hb := load_data_body_ok l0 rest hrect (by omega)
  have hde : ¬ dfEmpty (loadedFrame (l0 :: rest)) = true := by
    rw [dfEmpty_loadedFrame_false l0 rest hN]
    simp
  have hno : "close" ∉ (csvHeader (l0 :: rest)).map normName :=
    List.count_eq_zero.mp hclose
  have hnc : ¬ hasCol (loadedFrame (l0 :: rest)) "close" = true := by
    rw [hasCol_loadedFrame_false _ _ hno]
    simp
  rw [load_data_of_body_ok _ _ hb, if_neg hde, if_pos hnc]

/-! ## C5 -/

/-- C5: for a CSV with a header line and at least one data line, each data
line splitting to as many fields as the header (a well-formed CSV), if
exactly one column is named "close" after normalization then `load_data`
returns the table with all N data rows, whitespace-trimmed lower-cased
column names, the close column coerced to numeric (failed coercions become
missing) and every other column kept as raw strings; if no column is named
"close" after normalization it fails with the MissingColumn error. -/
theorem load_data_spec (l0 : String) (rest : List String)
    (hrect : ∀ r ∈ csvRows (l0 :: rest),
      r.length = (csvHeader (l0 :: rest)).length)
    (hN : csvRows (l0 :: rest) ≠ []) :
    (((csvHeader (l0 :: rest)).map normName).count "close" = 1 →
      load_data (l0 :: rest) = .ok (loadedFrame (l0 :: rest)) ∧
      nrows (loadedFrame (l0 :: rest)) = (csvRows (l0 :: rest)).length ∧
      (loadedFrame (l0 :: rest)).cols.map Prod.fst =
        (csvHeader (l0 :: rest)).map normName ∧
      hasCol (loadedFrame (l0 :: rest)) "close" = true ∧
      (∀ j < (csvHeader (l0 :: rest)).length,
        normName ((csvHeader (l0 :: rest)).getD j "") = "close" →
          (loadedFrame (l0 :: rest)).cols.getD j ("", []) =
            ("close", (rawCol (l0 :: rest) j).map
              (fun s => Cell.num (parseNumeric s)))) ∧
      (∀ j < (csvHeader (l0 :: rest)).length,
        normName ((csvHeader (l0 :: rest)).getD j "") ≠ "close" →
          (loadedFrame (l0 :: rest)).cols.getD j ("", []) =
            (normName ((csvHeader (l0 :: rest)).getD j ""),
              (rawCol (l0 :: rest) j).map Cell.str))) ∧
    (((csvHeader (l0 :: rest)).map normName).count "close" = 0 →
      load_data (l0 :: rest) = .error "Missing required column: close") := by
  constructor
  · intro hclose
    refine ⟨load_data_ok l0 rest hrect hclose hN, nrows_loadedFrame _,
      loadedFrame_names _,
      hasCol_loadedFrame_true _ _ (List.count_pos_iff.mp (by omega)),
      ?_, ?_⟩
    · intro j hj hcj
      rw [loadedFrame_col _ j hj, loadedEntry_close _ j hcj]
    · intro j hj hcj
      rw [loadedFrame_col _ j hj, loadedEntry_other _ j hcj]
  · intro hclose
    exact load_data_missing_close l0 rest hrect hclose hN

/-- Witness for C5 on the CSV "close,x" / "1,a": one data row, normalized
names, close coerced, the other column raw. -/
theorem load_data_spec_witness :
    load_data ["close,x", "1,a"] = .ok (loadedFrame ["close,x", "1,a"]) ∧
    nrows (loadedFrame ["close,x", "1,a"]) = 1 ∧
    (loadedFrame ["close,x", "1,a"]).cols.map Prod.fst = ["close", "x"] ∧
    (loadedFrame ["close,x", "1,a"]).cols.getD 1 ("", []) =
      ("x", [Cell.str "a"]) := by
  obtain ⟨h1, _⟩ := load_data_spec "close,x" ["1,a"] (by decide) (by decide)
  obtain ⟨ha, hb, hc, _, _, hf⟩ := h1 (by decide)
  refine ⟨ha, by rw [hb]; rfl, by rw [hc]; rfl, ?_⟩
  rw [hf 1 (by decide) (by decide)]
  decide

/-! ## C8 -/

/-- C8 counterexample: on a dataset that already has a `rolling_mean`
column, `process` overwrites it — the pre-existing column's values are not
left unchanged. -/
theorem process_overwrite_counterexample :
    getCol (⟨[("close", [Cell.num (some 2)]),
        ("rolling_mean", [Cell.str "x"])]⟩ : DataFrame) "rolling_mean" =
      some [Cell.str "x"] ∧
    getCol (process ⟨[("close", [Cell.num (some 2)]),
        ("rolling_mean", [Cell.str "x"])]⟩ 1) "rolling_mean" ≠
      some [Cell.str "x"] := by
  refine ⟨rfl, ?_⟩
  rw [getCol_process_rolling_mean]
  intro hcontra
  have h2 := Option.some_inj.mp hcontra
  have hxs : closeVals ⟨[("close", [Cell.num (some 2)]),
      ("rolling_mean", [Cell.str "x"])]⟩ = [some 2] := rfl
  rw [hxs] at h2
  cases hrm : rollingMean 1 [some (2 : ℚ)] with
  | nil =>
    rw [hrm] at h2
    exact List.noConfusion h2
  | cons a t =>
    rw [hrm] at h2
    simp at h2

theorem hasCol_process_signal_aux (df : DataFrame) (w : ℕ) :
    hasCol (setCol df "rolling_mean"
      ((rollingMean w (closeVals df)).map Cell.num)) "signal" =
      hasCol df "signal" :=
  hasCol_setCol_ne df "rolling_mean" "signal" _ (by decide)

/-- C8 (amended): `process` preserves the row count and leaves every
pre-existing column other than one named `rolling_mean` or `signal`
unchanged; it sets the `rolling_mean` and `signal` columns, overwriting
them when columns with those labels already exist, and otherwise appends
them; and `load_data` leaves every column other than "close" as raw
uncoerced strings. -/
theorem process_frame_spec (df : DataFrame) (w : ℕ)
    (hwf : wellFormed df) (hc : hasCol df "close" = true)
    (l0 : String) (rest : List String)
    (hrect : ∀ r ∈ csvRows (l0 :: rest),
      r.length = (csvHeader (l0 :: rest)).length)
    (hclose : ((csvHeader (l0 :: rest)).map normName).count "close" = 1)
    (hN : csvRows (l0 :: rest) ≠ []) :
    nrows (process df w) = nrows df ∧
    (∀ name, name ≠ "rolling_mean" → name ≠ "signal" →
      getCol (process df w) name = getCol df name) ∧
    (process df w).cols.map Prod.fst =
      (df.cols.map Prod.fst ++
        (if hasCol df "rolling_mean" then [] else ["rolling_mean"])) ++
      (if hasCol df "signal" then [] else ["signal"]) ∧
    (∀ df', load_data (l0 :: rest) = .ok df' →
      ∀ j < (csvHeader (l0 :: rest)).length,
        normName ((csvHeader (l0 :: rest)).getD j "") ≠ "close" →
          df'.cols.getD j ("", []) =
            (normName ((csvHeader (l0 :: rest)).getD j ""),
              (rawCol (l0 :: rest) j).map Cell.str)) := by
  refine ⟨nrows_process df w hwf hc, getCol_process_other df w, ?_, ?_⟩
  · unfold process
    rw [setCol_map_fst, hasCol_process_signal_aux, setCol_map_fst]
    by_cases h1 : hasCol df "rolling_mean" = true <;>
      by_cases h2 : hasCol df "signal" = true <;>
      simp [h1, h2]
  · intro df' hdf' j hj hcj
    rw [load_data_ok l0 rest hrect hclose hN] at hdf'
    obtain rfl := (Except.ok.inj hdf').symm
    rw [loadedFrame_col _ j hj, loadedEntry_other _ j hcj]

/-- Witness for the amended C8 on a one-column frame and the CSV
"close,x" / "1,a". -/
theorem process_frame_spec_witness :
    nrows (process ⟨[("close", [Cell.num (some 1)])]⟩ 1) = 1 ∧
    getCol (process ⟨[("close", [Cell.num (some 1)])]⟩ 1) "close" =
      getCol ⟨[("close", [Cell.num (some 1)])]⟩ "close" ∧
    (process ⟨[("close", [Cell.num (some 1)])]⟩ 1).cols.map Prod.fst =
      ["close", "rolling_mean", "signal"] := by
  obtain ⟨h1, h2, h3, _⟩ := process_frame_spec ⟨[("close", [Cell.num (some 1)])]⟩
    1 (by decide) (by decide) "close,x" ["1,a"] (by decide) (by decide)
    (by decide)
  exact ⟨by rw [h1]; rfl, h2 "close" (by decide) (by decide),
    by rw [h3]; decide⟩

end BatchJob
